import Mathlib

/-!
Verification development for the AI-Formula-Scanner recognition core
(`src-tauri/src/llm_api.rs`, `src-tauri/src/main.rs`).

Modelling conventions:
* Rust `&str` / `String` values are modelled as Lean `String`s; where the code
  scans text byte by byte the model works on `String.data : List Char`.  The
  scanned sentinel characters (`"`, `\`, `:`) are one-byte ASCII, so byte-level
  and character-level scanning coincide on UTF-8 input.
* Machine integers are modelled as `Nat` with an explicit `% 2 ^ w` wherever
  the Rust code can wrap (`u32` issue counts, the `u64` power in the backoff).
  Rust `saturating_sub` on unsigned integers is Nat subtraction.
* `f32` arithmetic in the confidence scorer is modelled by exact rational
  arithmetic with round-half-away-from-zero (`f32::round` on the non-negative
  values arising there).
* Fallible Rust functions returning `Result`/`Option` are modelled with
  `Except`/`Option`.
* The async orchestrator is modelled as a pure function of the three stage
  results; the wall-clock completion instants of the spawned tasks are carried
  as extra fields that the (await-based) control flow never consults.
-/

/-! ## String helpers (Rust `str::contains`, `to_lowercase`, `trim`) -/

/-- Boolean test that `pat` is a prefix of the first list (Rust slice prefix
matching used by `str::contains`). -/
def listStartsWith : List Char → List Char → Bool
  | _, [] => true
  | [], _ :: _ => false
  | a :: l, b :: p => a = b && listStartsWith l p

/-- Boolean substring test on char lists: some suffix of `hay` starts with
`pat`.  Models Rust `str::contains` with a string pattern (the patterns used
by the code are ASCII, so byte-level matching aligns with char boundaries). -/
def listContainsSub : List Char → List Char → Bool
  | [], pat => listStartsWith [] pat
  | a :: l, pat => listStartsWith (a :: l) pat || listContainsSub l pat

/-- Substring test on strings, models Rust `str::contains`. -/
def containsSub (hay pat : String) : Bool :=
  listContainsSub hay.data pat.data

/-- ASCII lowercasing of one character.  Rust `str::to_lowercase` performs full
Unicode lowercasing; it agrees with this on all ASCII characters, and every
pattern the retry classifier searches for is ASCII. -/
def lowerChar (c : Char) : Char :=
  if 'A' ≤ c ∧ c ≤ 'Z' then Char.ofNat (c.toNat + 32) else c

/-- Models Rust `str::to_lowercase` (ASCII fragment, see `lowerChar`). -/
def lowerStr (s : String) : String :=
  ⟨s.data.map lowerChar⟩

/-- Models Rust `s.trim().is_empty()`: every character is whitespace.  Rust
trims Unicode `White_Space` characters; `Char.isWhitespace` covers the ASCII
subset, which agrees on all ASCII input. -/
def strTrimIsEmpty (s : String) : Bool :=
  s.data.all Char.isWhitespace

/-- Models Rust `String::is_empty`. -/
def strIsEmpty (s : String) : Bool :=
  s.data.isEmpty

/-! ## Transport/retry client (`llm_api.rs`, `send_request_with_retry`) -/

/-- Retryable HTTP statuses, from `send_request_with_retry`:
`msg.contains("status 429") || ... || msg.contains("status 504")`. -/
def isRetryableHttp (msg : String) : Bool :=
  containsSub msg "status 429"
  || containsSub msg "status 500"
  || containsSub msg "status 502"
  || containsSub msg "status 503"
  || containsSub msg "status 504"

/-- Transport-level failure patterns, from `send_request_with_retry`. -/
def isRetryableTransport (msg : String) : Bool :=
  containsSub msg "Failed to send request"
  || containsSub (lowerStr msg) "timeout"
  || containsSub (lowerStr msg) "timed out"
  || containsSub (lowerStr msg) "connection reset"
  || containsSub (lowerStr msg) "temporarily unavailable"

/-- Cancellation patterns, from `send_request_with_retry`. -/
def isContextCanceled (msg : String) : Bool :=
  containsSub (lowerStr msg) "context canceled"
  || containsSub msg "status 499"

/-- Models `should_retry = (is_retryable_http || is_retryable_transport) && !is_context_canceled`. -/
def shouldRetry (msg : String) : Bool :=
  (isRetryableHttp msg || isRetryableTransport msg) && !(isContextCanceled msg)

/-- Backoff delay in milliseconds before retry attempt `n` (1-indexed):
`2u64.pow(attempts)` seconds plus `(attempts as u64 * 137) % 1000` ms.
The power is a `u64`, hence the explicit wrap at `2 ^ 64`; the jitter factor
`n * 137` cannot wrap because `attempts` is a `u32`. -/
def delayMs (n : Nat) : Nat :=
  1000 * (2 ^ n % 2 ^ 64) + n * 137 % 1000

/-- The retry loop of `send_request_with_retry`.  `results n` is the outcome of
the `n`-th attempt (0-indexed) of `send_request`; the function returns the
final outcome together with the list of backoff delays slept, in order. -/
def retryGo (results : Nat → Except String String) (maxRetries : Nat) (attempts : Nat) :
    Except String String × List Nat :=
  match results attempts with
  | .ok r => (.ok r, [])
  | .error e =>
    if h : shouldRetry e = true ∧ attempts < maxRetries then
      let rest := retryGo results maxRetries (attempts + 1)
      (rest.1, delayMs (attempts + 1) :: rest.2)
    else
      (.error e, [])
termination_by maxRetries - attempts
decreasing_by omega

/-- Models `send_request_with_retry`, starting from zero attempts. -/
def sendRequestWithRetry (maxRetries : Nat) (results : Nat → Except String String) :
    Except String String × List Nat :=
  retryGo results maxRetries 0

/-! ## Lenient latex extraction (`llm_api.rs`, `try_relaxed_extract_latex`) -/

/-- The literal key `"latex"` (with its quotes) searched by the fallback. -/
def latexKey : List Char := "\"latex\"".data

/-- Locate the first occurrence of `latexKey` and return the characters after
it (`clean.find(key)` followed by `start += key.len()`). -/
def findKeyEnd : List Char → Option (List Char)
  | [] => none
  | c :: rest =>
    if listStartsWith (c :: rest) latexKey then some ((c :: rest).drop latexKey.length)
    else findKeyEnd rest

/-- Drop through the first `':'` and return the characters after it (the
colon-searching loop of `try_relaxed_extract_latex`). -/
def dropAfterColon : List Char → Option (List Char)
  | [] => none
  | c :: rest => if c = ':' then some rest else dropAfterColon rest

/-- Drop through the first `'"'` after the colon and return the characters
after it (the quote-searching loop; the loop skips every non-quote character). -/
def dropAfterQuote : List Char → Option (List Char)
  | [] => none
  | c :: rest => if c = '"' then some rest else dropAfterQuote rest

/-- The escape-tracking scan of `try_relaxed_extract_latex`: starting just
after the opening quote with `escaped = false`, collect raw characters until
an unescaped `'"'`; a backslash seen unescaped sets the flag for exactly the
next character.  Returns the raw span content (without the quotes), or `none`
when no unescaped closing quote exists. -/
def takeJsonSpan : List Char → Bool → Option (List Char)
  | [], _ => none
  | c :: rest, escaped =>
    if c = '"' && !escaped then some []
    else
      match takeJsonSpan rest (c = '\\' && !escaped) with
      | some t => some (c :: t)
      | none => none

/-- Value of one hex digit, for JSON `\uXXXX` escapes. -/
def hexVal (c : Char) : Option Nat :=
  if '0' ≤ c ∧ c ≤ '9' then some (c.toNat - '0'.toNat)
  else if 'a' ≤ c ∧ c ≤ 'f' then some (c.toNat - 'a'.toNat + 10)
  else if 'A' ≤ c ∧ c ≤ 'F' then some (c.toNat - 'A'.toNat + 10)
  else none

/-- Four hex digits to a code unit. -/
def hex4 (a b c d : Char) : Option Nat :=
  match hexVal a, hexVal b, hexVal c, hexVal d with
  | some x, some y, some z, some w => some (4096 * x + 256 * y + 16 * z + w)
  | _, _, _, _ => none

/-- Single-character JSON escapes accepted by `serde_json`. -/
def escapeChar (c : Char) : Option Char :=
  if c = '"' then some '"'
  else if c = '\\' then some '\\'
  else if c = '/' then some '/'
  else if c = 'b' then some (Char.ofNat 8)
  else if c = 'f' then some (Char.ofNat 12)
  else if c = 'n' then some (Char.ofNat 10)
  else if c = 'r' then some (Char.ofNat 13)
  else if c = 't' then some (Char.ofNat 9)
  else none

/-- JSON insignificant whitespace. -/
def isJsonWs (c : Char) : Bool :=
  c = ' ' || c = '\t' || c = '\n' || c = '\r'

/-- Decoder for the tail of a JSON string document (after the opening quote),
modelling `serde_json::from_str::<String>` on the quoted span: ordinary
characters below `0x20` are rejected, `\` escapes cover the eight single-char
escapes and `\uXXXX` with mandatory surrogate pairing, and after the closing
quote only whitespace may remain. -/
def decodeTail : List Char → Option (List Char)
  | [] => none
  | '"' :: rest => if rest.all isJsonWs then some [] else none
  | '\\' :: rest =>
    match rest with
    | 'u' :: h1 :: h2 :: h3 :: h4 :: rest2 =>
      match hex4 h1 h2 h3 h4 with
      | none => none
      | some n =>
        if 0xD800 ≤ n ∧ n ≤ 0xDBFF then
          match rest2 with
          | '\\' :: 'u' :: g1 :: g2 :: g3 :: g4 :: rest3 =>
            match hex4 g1 g2 g3 g4 with
            | none => none
            | some m =>
              if 0xDC00 ≤ m ∧ m ≤ 0xDFFF then
                match decodeTail rest3 with
                | some t => some (Char.ofNat (0x10000 + (n - 0xD800) * 0x400 + (m - 0xDC00)) :: t)
                | none => none
              else none
          | _ => none
        else if 0xDC00 ≤ n ∧ n ≤ 0xDFFF then none
        else
          match decodeTail rest2 with
          | some t => some (Char.ofNat n :: t)
          | none => none
    | e :: rest2 =>
      match escapeChar e with
      | some c =>
        match decodeTail rest2 with
        | some t => some (c :: t)
        | none => none
      | none => none
    | [] => none
  | c :: rest =>
    if c.toNat < 0x20 then none
    else
      match decodeTail rest with
      | some t => some (c :: t)
      | none => none

/-- Models `serde_json::from_str::<String>` on a full quoted span. -/
def jsonDecodeString (span : List Char) : Option (List Char) :=
  match span with
  | '"' :: rest => decodeTail rest
  | _ => none

/-- Models `try_relaxed_extract_latex`: find the `"latex"` key, the following colon,
the first quote after it, scan to the unescaped closing quote tracking the
escape flag, and JSON-decode exactly the quoted span; any missing piece or a
failed decode yields `none`. -/
def tryRelaxedExtractLatex (clean : List Char) : Option (List Char) :=
  match findKeyEnd clean with
  | none => none
  | some afterKey =>
    match dropAfterColon afterKey with
    | none => none
    | some afterColon =>
      match dropAfterQuote afterColon with
      | none => none
      | some afterQuote =>
        match takeJsonSpan afterQuote false with
        | none => none
        | some content => jsonDecodeString ('"' :: (content ++ ['"']))

/-! ## Data model (`data_models.rs`) -/

/-- Models `VariableInfo`. -/
structure VariableInfo where
  symbol : String
  description : String
  unit : Option String
deriving DecidableEq

/-- Models `TermInfo`. -/
structure TermInfo where
  name : String
  description : String
deriving DecidableEq

/-- Models `Suggestion` (field `type` renamed, as in the Rust struct). -/
structure Suggestion where
  suggestionType : String
  message : String
deriving DecidableEq

/-- Models `Analysis`.  The Rust field `variables` is named `vars` here because
`variables` is a reserved word in Lean. -/
structure Analysis where
  summary : String
  vars : List VariableInfo
  terms : List TermInfo
  suggestions : List Suggestion
deriving DecidableEq

/-- Models `VerificationIssue`. -/
structure VerificationIssue where
  category : String
  message : String
deriving DecidableEq

/-- Models `VerificationCoverage` (`u32` counts, represented as `Nat`). -/
structure VerificationCoverage where
  symbolsMatched : Nat
  symbolsTotal : Nat
  termsMatched : Nat
  termsTotal : Nat
deriving DecidableEq

/-- Models `Verification`. -/
structure Verification where
  status : String
  issues : List VerificationIssue
  coverage : Option VerificationCoverage
deriving DecidableEq

/-- Models `VerificationResult` (`confidence_score` is a `u8` holding 0..=100). -/
structure VerificationResult where
  confidenceScore : Nat
  verificationReport : String
deriving DecidableEq

/-- Models `HistoryItem`. -/
structure HistoryItem where
  id : String
  latex : String
  title : String
  analysis : Analysis
  isFavorite : Bool
  createdAt : String
  confidenceScore : Nat
  originalImage : String
  modelName : Option String
  verification : Option Verification
  verificationReport : Option String
deriving DecidableEq

/-! ## Confidence scorer (`main.rs`, `compute_verification_result_from_struct`) -/

/-- Rounding used by the scorer: `f32::round` is round-half-away-from-zero,
which for the non-negative values arising here is `⌊x + 1/2⌋`. -/
def rround (x : ℚ) : ℤ :=
  (x + 1/2).floor

/-- Coverage-based score: per-category percentage (100 when the total is 0),
combined 75/25, rounded and clamped to `[0, 100]`, cast to `u8`.  The `f32`
arithmetic of the source is modelled by exact rational arithmetic. -/
def coverageScore (cov : VerificationCoverage) : Nat :=
  let symbolsScore : ℚ :=
    if cov.symbolsTotal > 0 then
      ((rround ((100 : ℚ) * cov.symbolsMatched / cov.symbolsTotal) : ℤ) : ℚ)
    else 100
  let termsScore : ℚ :=
    if cov.termsTotal > 0 then
      ((rround ((100 : ℚ) * cov.termsMatched / cov.termsTotal) : ℤ) : ℚ)
    else 100
  let combined : ℤ := rround ((3/4 : ℚ) * symbolsScore + (1/4 : ℚ) * termsScore)
  (min (max combined 0) 100).toNat

/-- Coverage-absent heuristic.  `issues.len() as u32` and the `u32` products
are modelled with explicit wraps at `2 ^ 32`; `u8::saturating_sub` is Nat
subtraction. -/
def heuristicScore (status : String) (issuesLen : Nat) : Nat :=
  let lenU32 := issuesLen % 2 ^ 32
  if status = "ok" then 100
  else if status = "warning" then 80 - min (lenU32 * 2 % 2 ^ 32) 20
  else 60 - min (lenU32 * 5 % 2 ^ 32) 50

/-- Models `compute_verification_result_from_struct`: score plus short report. -/
def computeVerificationResultFromStruct (v : Verification) : VerificationResult :=
  let score : Nat :=
    match v.coverage with
    | some cov => coverageScore cov
    | none => heuristicScore v.status v.issues.length
  let report : String :=
    if v.status = "ok" ∧ v.issues.isEmpty then "LaTeX 完全匹配原始公式。"
    else
      let lines := (v.issues.take 10).map (fun i => "- [" ++ i.category ++ "] " ++ i.message)
      let lines2 :=
        if v.issues.length > 10 then
          lines ++ ["(其余 " ++ toString (v.issues.length - 10) ++ " 条问题已省略)"]
        else lines
      if lines2.isEmpty then
        if v.status = "warning" then "存在版式/排版差异，但不影响数学含义。"
        else "存在与原图不一致的内容，请检查符号、上下标与项是否匹配。"
      else "发现以下差异：\n" ++ String.intercalate "\n" lines2
  ⟨score, report⟩

/-! ## Recognition orchestrator (`main.rs`, the four `recognize_from_*` commands) -/

/-- Configuration fields consumed by the recognition entry points. -/
structure ConfigM where
  latexPrompt : String
  analysisPrompt : String
  verificationPrompt : String
  customPrompt : String
  language : String
  defaultEngine : String
deriving DecidableEq

/-- Error returned when the latex prompt is empty (screenshot/file/clipboard). -/
def latexPromptMissingMsg : String :=
  "LaTeX 提示词未设置。请在设置中填写或点击‘恢复默认提示词’后重试。"

/-- Error returned when the analysis prompt is empty. -/
def analysisPromptMissingMsg : String :=
  "分析提示词未设置。请在设置中填写或点击‘恢复默认提示词’后重试。"

/-- Error returned when the verification prompt is empty. -/
def verificationPromptMissingMsg : String :=
  "核查提示词未设置。请在设置中填写或点击‘恢复默认提示词’后重试。"

/-- Degraded verification report (the literal the code substitutes on a
verification-stage failure; it reads "verification failed"). -/
def verificationFailedReport : String := "验证失败"

/-- Models `default_title_for_lang`. -/
def defaultTitleForLang (language : String) : String :=
  if language = "zh-CN" then "未命名公式" else "Untitled formula"

/-- Models `default_summary_for_lang`. -/
def defaultSummaryForLang (language : String) : String :=
  if language = "zh-CN" then "分析暂不可用，请稍后重试。" else "Analysis is temporarily unavailable. Please try again."

/-- The degraded analysis substituted when the analysis stage fails. -/
def emptyAnalysisForLang (language : String) : Analysis :=
  ⟨defaultSummaryForLang language, [], [], []⟩

/-- Progress stages, in the protocol's emission order. -/
inductive Stage
  | latex
  | analysis
  | confidence
deriving DecidableEq

/-- The payload fields of `RecognitionProgressPayload` that the claims are
about. -/
structure ProgressEvent where
  id : String
  stage : Stage
  latex : Option String
  title : Option String
  analysisPayload : Option Analysis
  confidenceScore : Option Nat
  verificationReport : Option String
deriving DecidableEq

/-- Results of the three spawned stage tasks for one recognition call.  Each
`Except` folds together the task join result and the API call result, exactly
as the `match` arms in the code do.  The `...DoneAt` fields record wall-clock
completion instants of the tasks; the await-based orchestrator never reads
them (they exist so that independence from completion order is statable). -/
structure StageResults where
  latexRes : Except String String
  analysisRes : Except String (String × Analysis)
  verifyRes : Except String VerificationResult
  latexDoneAt : Nat
  analysisDoneAt : Nat
  verifyDoneAt : Nat

/-- Observable outcome of one recognition call: the prompts of the issued
backend requests (in spawn order), the emitted progress events (in emission
order), the command's return value, and the history record appended (if any). -/
structure RecognizeOutput where
  requests : List String
  events : List ProgressEvent
  result : Except String HistoryItem
  appended : Option HistoryItem

/-- The shared orchestration of `recognize_from_screenshot` / `_file` /
`_clipboard` / `_image_base64` after prompt construction: spawn latex and
analysis together, await latex (fatal on failure), emit the latex event,
spawn verification, await analysis (degrade on failure), emit the analysis
event, await verification (degrade on failure), emit the confidence event,
then build and append the history record. -/
def orchestrate (language id createdAt imgPath modelName : String)
    (latexPrompt analysisPrompt verificationPrompt : String)
    (oc : StageResults) : RecognizeOutput :=
  let spawned := [latexPrompt, analysisPrompt]
  match oc.latexRes with
  | .error e => ⟨spawned, [], .error e, none⟩
  | .ok latex =>
    let ev1 : ProgressEvent := ⟨id, .latex, some latex, none, none, none, none⟩
    let requests := spawned ++ [verificationPrompt]
    let ta :=
      match oc.analysisRes with
      | .ok v => v
      | .error _ => (defaultTitleForLang language, emptyAnalysisForLang language)
    let ev2 : ProgressEvent := ⟨id, .analysis, none, some ta.1, some ta.2, none, none⟩
    let vr :=
      match oc.verifyRes with
      | .ok vr => vr
      | .error _ => ⟨0, verificationFailedReport⟩
    let ev3 : ProgressEvent :=
      ⟨id, .confidence, none, none, none, some vr.confidenceScore, some vr.verificationReport⟩
    let item : HistoryItem :=
      ⟨id, latex, ta.1, ta.2, false, createdAt, vr.confidenceScore, imgPath,
        some modelName, none, some vr.verificationReport⟩
    ⟨requests, [ev1, ev2, ev3], .ok item, some item⟩

/-- The screenshot/file/clipboard entry points: they reject an empty (after
trim) latex, analysis or verification prompt, in that order, each with its own
message, before spawning any task; otherwise they run the orchestration with
the user's prompts (latex prompt plus the format rule, analysis/verification
prompts plus a language constraint — the appended texts are passed in as
parameters). -/
def recognizeChecked (cfg : ConfigM) (formatRule analysisLang verificationLang : String)
    (id createdAt imgPath : String) (oc : StageResults) : RecognizeOutput :=
  if strTrimIsEmpty cfg.latexPrompt then ⟨[], [], .error latexPromptMissingMsg, none⟩
  else if strTrimIsEmpty cfg.analysisPrompt then ⟨[], [], .error analysisPromptMissingMsg, none⟩
  else if strTrimIsEmpty cfg.verificationPrompt then ⟨[], [], .error verificationPromptMissingMsg, none⟩
  else
    orchestrate cfg.language id createdAt imgPath cfg.defaultEngine
      (cfg.latexPrompt ++ formatRule)
      (cfg.analysisPrompt ++ "\n\n" ++ analysisLang)
      (cfg.verificationPrompt ++ "\n\n" ++ verificationLang)
      oc

/-- The `recognize_from_image_base64` entry point: no emptiness check at all;
an empty latex or analysis prompt is silently replaced by `custom_prompt`, and
the verification prompt is used as configured. -/
def recognizeBase64 (cfg : ConfigM) (formatRule analysisLang verificationLang : String)
    (id createdAt imgPath : String) (oc : StageResults) : RecognizeOutput :=
  let latexPrompt :=
    if !strIsEmpty cfg.latexPrompt then cfg.latexPrompt ++ formatRule else cfg.customPrompt
  let analysisPrompt :=
    if !strIsEmpty cfg.analysisPrompt then cfg.analysisPrompt ++ "\n\n" ++ analysisLang
    else cfg.customPrompt
  let verificationPrompt := cfg.verificationPrompt ++ "\n\n" ++ verificationLang
  orchestrate cfg.language id createdAt imgPath cfg.defaultEngine
    latexPrompt analysisPrompt verificationPrompt oc

/-! ## History store and cache (`main.rs`, `get_history` and the mutations) -/

/-- The backing `history.json` file: its list and its modification time.
Mutations are handed the filesystem-assigned new modification time as a
parameter; nothing forces it to differ from the old one (time granularity). -/
structure FileSt where
  items : List HistoryItem
  mtime : Nat
deriving DecidableEq

/-- The in-memory cache (`HistoryCacheState`), protected by one lock. -/
structure CacheSt where
  lastMtime : Option Nat
  data : List HistoryItem
deriving DecidableEq

/-- Result of `get_history`: the returned list, the cache afterwards, and
whether the backing file was re-read. -/
structure GetResult where
  items : List HistoryItem
  cache : CacheSt
  didRead : Bool
deriving DecidableEq

/-- Models `get_history`: if the cached modification time equals the file's current
one, return the cached list without touching the file; otherwise re-read the
file and refresh both cache fields. -/
def getHistory (file : FileSt) (cache : CacheSt) : GetResult :=
  if cache.lastMtime = some file.mtime then ⟨cache.data, cache, false⟩
  else ⟨file.items, ⟨some file.mtime, file.items⟩, true⟩

/-- Models `save_to_history`: read the file, insert the item at the head, write it
back, then (inside the same lock) set the cached list and cached modification
time to the just-written state.  Metadata reads are modelled as succeeding. -/
def saveToHistory (file : FileSt) (cache : CacheSt) (item : HistoryItem) (newMtime : Nat) :
    FileSt × CacheSt :=
  let items := item :: file.items
  (⟨items, newMtime⟩, ⟨some newMtime, items⟩)

/-- Error message for a missing history id (shared by delete/update). -/
def itemNotFoundMsg (id : String) : String :=
  "Item with ID \x27" ++ id ++ "\x27 not found"

/-- Models `delete_history_item`: retain every record whose id differs; if nothing
was removed, fail without writing the file or touching the cache; otherwise
write the remaining list and refresh the cache. -/
def deleteHistoryItem (file : FileSt) (cache : CacheSt) (id : String) (newMtime : Nat) :
    Except String Unit × FileSt × CacheSt :=
  let remaining := file.items.filter (fun it => it.id != id)
  if remaining.length = file.items.length then
    (.error (itemNotFoundMsg id), file, cache)
  else
    (.ok (), ⟨remaining, newMtime⟩, ⟨some newMtime, remaining⟩)

/-- Replace the title of the first record with the given id (`iter_mut().find`). -/
def setFirstTitle : List HistoryItem → String → String → Option (List HistoryItem)
  | [], _, _ => none
  | it :: rest, id, title =>
    if it.id = id then some ({ it with title := title } :: rest)
    else
      match setFirstTitle rest id title with
      | some l => some (it :: l)
      | none => none

/-- Replace the favorite flag of the first record with the given id. -/
def setFirstFavorite : List HistoryItem → String → Bool → Option (List HistoryItem)
  | [], _, _ => none
  | it :: rest, id, fav =>
    if it.id = id then some ({ it with isFavorite := fav } :: rest)
    else
      match setFirstFavorite rest id fav with
      | some l => some (it :: l)
      | none => none

/-- Models `update_history_title`: mutate the first matching record, write, refresh
the cache; error (without writing) when the id is absent. -/
def updateHistoryTitle (file : FileSt) (cache : CacheSt) (id title : String) (newMtime : Nat) :
    Except String Unit × FileSt × CacheSt :=
  match setFirstTitle file.items id title with
  | some newItems => (.ok (), ⟨newItems, newMtime⟩, ⟨some newMtime, newItems⟩)
  | none => (.error (itemNotFoundMsg id), file, cache)

/-- Models `update_favorite_status`: mutate the first matching record, write, refresh
the cache; error (without writing) when the id is absent. -/
def updateFavoriteStatus (file : FileSt) (cache : CacheSt) (id : String) (fav : Bool) (newMtime : Nat) :
    Except String Unit × FileSt × CacheSt :=
  match setFirstFavorite file.items id fav with
  | some newItems => (.ok (), ⟨newItems, newMtime⟩, ⟨some newMtime, newItems⟩)
  | none => (.error (itemNotFoundMsg id), file, cache)

/-- Modelled from the spec's wording of the coverage formula: the per-symbol
score is 100 when `symbols_total = 0`, otherwise `round(100 * symbols_matched
/ symbols_total)`.  Used only to compare the implementation against the spec. -/
def specSymbolScore (cov : VerificationCoverage) : ℤ :=
  if cov.symbolsTotal = 0 then 100
  else rround ((100 : ℚ) * cov.symbolsMatched / cov.symbolsTotal)

/-- Modelled from the spec's wording: the per-term score, analogous to
`specSymbolScore`. -/
def specTermScore (cov : VerificationCoverage) : ℤ :=
  if cov.termsTotal = 0 then 100
  else rround ((100 : ℚ) * cov.termsMatched / cov.termsTotal)

/-- Modelled from the spec's wording: `round(0.75 * symbol_score + 0.25 *
term_score)` clamped to `[0, 100]`. -/
def specCombinedScore (cov : VerificationCoverage) : Nat :=
  (min (max (rround ((3/4 : ℚ) * (specSymbolScore cov : ℚ) + (1/4 : ℚ) * (specTermScore cov : ℚ))) 0) 100).toNat

/-- A concrete history record used by witnesses. -/
def histItemA : HistoryItem :=
  ⟨"a", "x", "t", ⟨"s", [], [], []⟩, false, "d", 50, "img", none, none, none⟩

/-! ## Theorems -/

/-- Bridge between the executable rounding and the mathematical floor. -/
theorem rround_eq (q : ℚ) : rround q = ⌊q + 1/2⌋ := by
  simp [rround, Int.floor]
  rfl

/-- Unfolding step: a successful attempt stops the loop with no delay. -/
theorem retryGo_ok {results : Nat → Except String String} {m a : Nat} {r : String}
    (h : results a = .ok r) : retryGo results m a = (.ok r, []) := by
  rw [retryGo, h]

/-- Unfolding step: a failed attempt that is not retried returns the error. -/
theorem retryGo_error_stop {results : Nat → Except String String} {m a : Nat} {e : String}
    (h : results a = .error e) (hc : ¬(shouldRetry e = true ∧ a < m)) :
    retryGo results m a = (.error e, []) := by
  rw [retryGo, h]
  exact dif_neg hc

/-- Unfolding step: a failed attempt that is retried sleeps one backoff delay
and continues with the next attempt. -/
theorem retryGo_error_step {results : Nat → Except String String} {m a : Nat} {e : String}
    (h : results a = .error e) (hc : shouldRetry e = true ∧ a < m) :
    retryGo results m a =
      ((retryGo results m (a + 1)).1, delayMs (a + 1) :: (retryGo results m (a + 1)).2) := by
  rw [retryGo, h]
  exact dif_pos hc

/-- If every attempt up to `maxRetries` fails with a retryable error, the loop
performs exactly the remaining retries, sleeps the deterministic backoff
sequence, and returns the final attempt's error unchanged. -/
theorem retryGo_all_retryable (results : Nat → Except String String) (errs : Nat → String)
    (maxRetries : Nat) :
    ∀ k a, maxRetries - a = k → a ≤ maxRetries →
    (∀ n, a ≤ n → n ≤ maxRetries → results n = .error (errs n)) →
    (∀ n, a ≤ n → n ≤ maxRetries → shouldRetry (errs n) = true) →
    retryGo results maxRetries a =
      (.error (errs maxRetries), (List.range (maxRetries - a)).map (fun i => delayMs (a + 1 + i))) := by
  intro k
  induction k with
  | zero =>
    intro a hk ha hres hret
    have haeq : a = maxRetries := by omega
    subst haeq
    rw [retryGo_error_stop (hres a le_rfl le_rfl) (by omega)]
    simp [hk]
  | succ k ih =>
    intro a hk ha hres hret
    have halt : a < maxRetries := by omega
    rw [retryGo_error_step (hres a le_rfl (by omega)) ⟨hret a le_rfl (by omega), halt⟩]
    have ihres := ih (a + 1) (by omega) (by omega)
      (fun n h1 h2 => hres n (by omega) h2) (fun n h1 h2 => hret n (by omega) h2)
    rw [ihres]
    have hsub : maxRetries - a = (maxRetries - (a + 1)) + 1 := by omega
    rw [hsub, List.range_succ_eq_map]
    have harg : ∀ i, a + 1 + 1 + i = a + 1 + (i + 1) := by omega
    simp [List.map_map, Function.comp, harg]

/-- The delays slept by the retry loop are exactly the deterministic backoff
formula applied to the successive attempt numbers. -/
theorem retryGo_delays_shape (results : Nat → Except String String) (maxRetries : Nat) :
    ∀ k a, maxRetries - a = k →
    (retryGo results maxRetries a).2 =
      (List.range (retryGo results maxRetries a).2.length).map (fun i => delayMs (a + 1 + i)) := by
  intro k
  induction k with
  | zero =>
    intro a hk
    match hr : results a with
    | .ok r =>
      rw [retryGo_ok hr]
      simp
    | .error e =>
      rw [retryGo_error_stop hr (by omega)]
      simp
  | succ k ih =>
    intro a hk
    match hr : results a with
    | .ok r =>
      rw [retryGo_ok hr]
      simp
    | .error e =>
      by_cases hc : shouldRetry e = true ∧ a < maxRetries
      · rw [retryGo_error_step hr hc]
        have ihres := ih (a + 1) (by omega)
        simp only [List.length_cons]
        rw [List.range_succ_eq_map]
        conv_lhs => rw [ihres]
        have harg : ∀ i, a + 1 + 1 + i = a + 1 + (i + 1) := by omega
        simp [List.map_map, Function.comp, harg]
      · rw [retryGo_error_stop hr hc]
        simp

/-- C4: `send_request_with_retry` retries a failed attempt exactly when the
error text matches a retryable HTTP status (429/500/502/503/504) or a
transport failure pattern and does not indicate cancellation (status 499 or
"context canceled"); cancellation takes precedence over any retryable match;
a non-retryable first error is returned unchanged with no retry; and when all
attempts fail retryably the loop stops after `max_retries` retries and
returns the last error unchanged. -/
theorem c4_retry_classifier :
    (∀ msg : String, isContextCanceled msg = true → shouldRetry msg = false)
  ∧ (∀ (maxRetries : Nat) (results : Nat → Except String String) (e : String),
      results 0 = .error e → shouldRetry e = false →
      sendRequestWithRetry maxRetries results = (.error e, []))
  ∧ (∀ (maxRetries : Nat) (results : Nat → Except String String) (e : String),
      results 0 = .error e → shouldRetry e = true → 0 < maxRetries →
      (sendRequestWithRetry maxRetries results).2 ≠ [])
  ∧ (∀ (maxRetries : Nat) (results : Nat → Except String String) (errs : Nat → String),
      (∀ n, n ≤ maxRetries → results n = .error (errs n)) →
      (∀ n, n ≤ maxRetries → shouldRetry (errs n) = true) →
      sendRequestWithRetry maxRetries results =
        (.error (errs maxRetries), (List.range maxRetries).map (fun i => delayMs (i + 1)))) := by
  refine ⟨?_, ?_, ?_, ?_⟩
  · intro msg h
    simp [shouldRetry, h]
  · intro maxRetries results e h1 h2
    rw [sendRequestWithRetry, retryGo_error_stop h1 (by simp [h2])]
  · intro maxRetries results e h1 h2 h3
    rw [sendRequestWithRetry, retryGo_error_step h1 ⟨h2, h3⟩]
    simp
  · intro maxRetries results errs hres hret
    have h := retryGo_all_retryable results errs maxRetries maxRetries 0 (by omega) (by omega)
      (fun n _ h2 => hres n h2) (fun n _ h2 => hret n h2)
    rw [sendRequestWithRetry, h]
    have harg : ∀ i : Nat, 0 + 1 + i = i + 1 := by omega
    simp [harg]

/-- C4 witness: three consecutive 503 failures with `max_retries = 2` are
retried twice and the last error is returned unchanged; a cancellation text is
never retryable even though it also matches a retryable pattern. -/
theorem c4_retry_classifier_witness :
    sendRequestWithRetry 2 (fun _ => .error "API request failed with status 503: x") =
      (.error "API request failed with status 503: x", [delayMs 1, delayMs 2])
  ∧ shouldRetry "status 503 context canceled" = false := by
  constructor
  · have hsr : shouldRetry "API request failed with status 503: x" = true := by decide
    have h := c4_retry_classifier.2.2.2 2
      (fun _ => .error "API request failed with status 503: x")
      (fun _ => "API request failed with status 503: x")
      (fun n _ => rfl) (fun n _ => hsr)
    rw [h]
    norm_num [List.range_succ]
  · exact c4_retry_classifier.1 "status 503 context canceled" (by decide)

/-- C5: the backoff delay slept before retry attempt `n` (1-indexed) is a
deterministic function of `n` alone — the delays of any run are exactly
`delayMs` applied to the attempt numbers 1, 2, … — and for every attempt
number below 64 (where the `u64` power cannot wrap) it equals exactly
`2 ^ n` seconds plus `(n * 137) % 1000` milliseconds. -/
theorem c5_backoff_formula (maxRetries : Nat) (results : Nat → Except String String) :
    (sendRequestWithRetry maxRetries results).2 =
      (List.range (sendRequestWithRetry maxRetries results).2.length).map (fun i => delayMs (i + 1))
  ∧ (∀ n, n < 64 → delayMs n = 1000 * 2 ^ n + n * 137 % 1000) := by
  constructor
  · have h := retryGo_delays_shape results maxRetries maxRetries 0 (by omega)
    rw [sendRequestWithRetry]
    rw [h]
    have harg : ∀ i : Nat, 0 + 1 + i = i + 1 := by omega
    simp [harg]
  · intro n hn
    have hlt : 2 ^ n < 2 ^ 64 := Nat.pow_lt_pow_right (by norm_num) hn
    simp only [delayMs]
    rw [Nat.mod_eq_of_lt hlt]

/-- C5 witness: the delay before the third retry attempt is exactly 8 seconds
plus 411 milliseconds. -/
theorem c5_backoff_formula_witness : delayMs 3 = 8411 := by
  have h := (c5_backoff_formula 0 (fun _ => .ok "")).2 3 (by norm_num)
  rw [h]
  norm_num

/-- C7: when strict parsing fails, the lenient fallback locates the `"latex"`
key, the following colon and the first quote after it, scans with the
one-character escape flag to the unescaped closing quote, and JSON-decodes
exactly that span; on the malformed input `{"latex": "\\frac{1}{2}"]}` (stray
bracket outside the quoted string) it succeeds with `\frac{1}{2}`, and it
returns no result when no complete quoted string is found. -/
theorem c7_lenient_extraction :
    tryRelaxedExtractLatex ("\x7b\"latex\": \"\\\\frac\x7b1\x7d\x7b2\x7d\"]\x7d".data) =
      some ("\\frac\x7b1\x7d\x7b2\x7d".data)
  ∧ (∀ clean k c q, findKeyEnd clean = some k → dropAfterColon k = some c →
      dropAfterQuote c = some q → takeJsonSpan q false = none →
      tryRelaxedExtractLatex clean = none) := by
  constructor
  · decide
  · intro clean k c q h1 h2 h3 h4
    simp [tryRelaxedExtractLatex, h1, h2, h3, h4]

/-- C7 witness: an input whose quoted string never closes is rejected by the
fallback. -/
theorem c7_lenient_extraction_witness :
    tryRelaxedExtractLatex ("\"latex\": \"abc".data) = none :=
  c7_lenient_extraction.2 ("\"latex\": \"abc".data) (": \"abc".data) (" \"abc".data) ("abc".data)
    (by decide) (by decide) (by decide) (by decide)

/-- C10: the lenient fallback is a total function into `Option` (it is defined
by structural recursion on the character list, so it terminates on every
input, Unicode included), and it returns `none` whenever the `"latex"` key, a
following colon, an opening quote, or a subsequent unescaped closing quote is
absent. -/
theorem c10_relaxed_safety (clean : List Char) :
    (findKeyEnd clean = none → tryRelaxedExtractLatex clean = none)
  ∧ (∀ k, findKeyEnd clean = some k → dropAfterColon k = none →
      tryRelaxedExtractLatex clean = none)
  ∧ (∀ k c, findKeyEnd clean = some k → dropAfterColon k = some c →
      dropAfterQuote c = none → tryRelaxedExtractLatex clean = none)
  ∧ (∀ k c q, findKeyEnd clean = some k → dropAfterColon k = some c →
      dropAfterQuote c = some q → takeJsonSpan q false = none →
      tryRelaxedExtractLatex clean = none) := by
  refine ⟨?_, ?_, ?_, ?_⟩
  · intro h1
    simp [tryRelaxedExtractLatex, h1]
  · intro k h1 h2
    simp [tryRelaxedExtractLatex, h1, h2]
  · intro k c h1 h2 h3
    simp [tryRelaxedExtractLatex, h1, h2, h3]
  · intro k c q h1 h2 h3 h4
    simp [tryRelaxedExtractLatex, h1, h2, h3, h4]

/-- C10 witness: an input without the `"latex"` key yields `none`. -/
theorem c10_relaxed_safety_witness :
    tryRelaxedExtractLatex ("no latex key".data) = none :=
  (c10_relaxed_safety ("no latex key".data)).1 (by decide)

/-- C6: the confidence score of `compute_verification_result_from_struct` is,
with coverage present, the spec formula (per-category rounded percentage, 100
on a zero total, combined 75/25, rounded, clamped to `[0,100]`), giving 73 for
symbols 8/10 and terms 2/4; with coverage absent it is 100 for status "ok",
`80 − min(2·issueCount, 20)` for "warning" and `60 − min(5·issueCount, 50)`
otherwise (floored at 0 by saturating subtraction), giving 68 for "warning"
with 6 issues and 10 for "error" with 20 issues. -/
theorem c6_confidence_scoring :
    (∀ (v : Verification) (cov : VerificationCoverage), v.coverage = some cov →
      (computeVerificationResultFromStruct v).confidenceScore = specCombinedScore cov)
  ∧ (computeVerificationResultFromStruct ⟨"ok", [], some ⟨8, 10, 2, 4⟩⟩).confidenceScore = 73
  ∧ (∀ v : Verification, v.coverage = none → v.status = "ok" →
      (computeVerificationResultFromStruct v).confidenceScore = 100)
  ∧ (∀ v : Verification, v.coverage = none → v.status = "warning" →
      2 * v.issues.length < 2 ^ 32 →
      (computeVerificationResultFromStruct v).confidenceScore = 80 - min (2 * v.issues.length) 20)
  ∧ (∀ v : Verification, v.coverage = none → v.status ≠ "ok" → v.status ≠ "warning" →
      5 * v.issues.length < 2 ^ 32 →
      (computeVerificationResultFromStruct v).confidenceScore = 60 - min (5 * v.issues.length) 50)
  ∧ (computeVerificationResultFromStruct
      ⟨"warning", List.replicate 6 ⟨"other", "m"⟩, none⟩).confidenceScore = 68
  ∧ (computeVerificationResultFromStruct
      ⟨"error", List.replicate 20 ⟨"other", "m"⟩, none⟩).confidenceScore = 10 := by
  have hcover : ∀ cov : VerificationCoverage, coverageScore cov = specCombinedScore cov := by
    intro cov
    have hS : (if cov.symbolsTotal > 0 then
        ((rround ((100 : ℚ) * cov.symbolsMatched / cov.symbolsTotal) : ℤ) : ℚ)
      else 100) = ((specSymbolScore cov : ℤ) : ℚ) := by
      by_cases h : cov.symbolsTotal = 0
      · simp [specSymbolScore, h]
      · simp [specSymbolScore, h, Nat.pos_of_ne_zero h]
    have hT : (if cov.termsTotal > 0 then
        ((rround ((100 : ℚ) * cov.termsMatched / cov.termsTotal) : ℤ) : ℚ)
      else 100) = ((specTermScore cov : ℤ) : ℚ) := by
      by_cases h : cov.termsTotal = 0
      · simp [specTermScore, h]
      · simp [specTermScore, h, Nat.pos_of_ne_zero h]
    simp only [coverageScore, specCombinedScore, hS, hT]
  refine ⟨?_, ?_, ?_, ?_, ?_, ?_, ?_⟩
  · intro v cov hcov
    simp [computeVerificationResultFromStruct, hcov, hcover]
  · have h1 : specSymbolScore ⟨8, 10, 2, 4⟩ = 80 := by
      simp only [specSymbolScore]
      norm_num
      rw [rround_eq]
      norm_num [Int.floor_eq_iff]
    have h2 : specTermScore ⟨8, 10, 2, 4⟩ = 50 := by
      simp only [specTermScore]
      norm_num
      rw [rround_eq]
      norm_num [Int.floor_eq_iff]
    have h3 : specCombinedScore ⟨8, 10, 2, 4⟩ = 73 := by
      simp only [specCombinedScore, h1, h2]
      rw [rround_eq]
      norm_num [Int.floor_eq_iff]
      decide
    simp [computeVerificationResultFromStruct, hcover, h3]
  · intro v hcov hst
    simp [computeVerificationResultFromStruct, hcov, heuristicScore, hst]
  · intro v hcov hst hlen
    simp only [computeVerificationResultFromStruct, hcov, heuristicScore]
    rw [hst]
    rw [if_neg (show ¬("warning" : String) = "ok" by decide), if_pos rfl]
    rw [Nat.mod_eq_of_lt (show v.issues.length < 2 ^ 32 by omega)]
    rw [show v.issues.length * 2 % 2 ^ 32 = 2 * v.issues.length from by omega]
  · intro v hcov hst1 hst2 hlen
    simp only [computeVerificationResultFromStruct, hcov, heuristicScore]
    rw [if_neg hst1, if_neg hst2]
    rw [Nat.mod_eq_of_lt (show v.issues.length < 2 ^ 32 by omega)]
    rw [show v.issues.length * 5 % 2 ^ 32 = 5 * v.issues.length from by omega]
  · decide
  · decide

/-- C6 witness: the coverage-absent heuristic at a concrete "ok" verification
with one issue still scores 100. -/
theorem c6_confidence_scoring_witness :
    (computeVerificationResultFromStruct ⟨"ok", [⟨"other", "m"⟩], none⟩).confidenceScore = 100 :=
  c6_confidence_scoring.2.2.1 ⟨"ok", [⟨"other", "m"⟩], none⟩ rfl rfl

/-- C9: `delete_history_item` with an absent id fails with an error naming the
id and leaves both the persisted file and the cache untouched; with a present
id it succeeds, removing every record with that id while persisting the
remaining records in their original order. -/
theorem c9_delete_history_item (file : FileSt) (cache : CacheSt) (id : String) (m : Nat) :
    ((∀ it ∈ file.items, it.id ≠ id) →
      deleteHistoryItem file cache id m = (.error (itemNotFoundMsg id), file, cache))
  ∧ ((∃ it ∈ file.items, it.id = id) →
      (deleteHistoryItem file cache id m).1 = .ok () ∧
      (deleteHistoryItem file cache id m).2.1.items =
        file.items.filter (fun it => it.id != id) ∧
      List.Sublist (deleteHistoryItem file cache id m).2.1.items file.items ∧
      (∀ it ∈ (deleteHistoryItem file cache id m).2.1.items, it.id ≠ id)) := by
  constructor
  · intro h
    have hfil : file.items.filter (fun it => it.id != id) = file.items :=
      List.filter_eq_self.mpr (fun a ha => by simpa using h a ha)
    simp [deleteHistoryItem, hfil]
  · rintro ⟨it0, hit0, hid0⟩
    have hlt : (file.items.filter (fun it => it.id != id)).length < file.items.length := by
      rw [List.length_filter_lt_length_iff_exists]
      exact ⟨it0, hit0, by simp [hid0]⟩
    have hne : ¬((file.items.filter (fun it => it.id != id)).length = file.items.length) := by
      omega
    have hdel : deleteHistoryItem file cache id m =
        (.ok (), ⟨file.items.filter (fun it => it.id != id), m⟩,
          ⟨some m, file.items.filter (fun it => it.id != id)⟩) := by
      simp only [deleteHistoryItem, if_neg hne]
    refine ⟨by rw [hdel], by rw [hdel], ?_, ?_⟩
    · rw [hdel]
      exact List.filter_sublist _
    · intro it hit
      rw [hdel] at hit
      have hm := List.of_mem_filter hit
      simpa using hm

/-- C9 witness: deleting an absent id fails without touching file or cache;
deleting a present id succeeds. -/
theorem c9_delete_history_item_witness :
    deleteHistoryItem ⟨[histItemA], 5⟩ ⟨some 5, [histItemA]⟩ "b" 6 =
      (.error (itemNotFoundMsg "b"), ⟨[histItemA], 5⟩, ⟨some 5, [histItemA]⟩)
  ∧ (deleteHistoryItem ⟨[histItemA], 5⟩ ⟨some 5, [histItemA]⟩ "a" 6).1 = .ok () := by
  constructor
  · exact (c9_delete_history_item _ _ _ _).1 (by decide)
  · exact ((c9_delete_history_item _ _ _ _).2 ⟨histItemA, by decide, rfl⟩).1

/-- C8: `get_history` returns the cached list without re-reading the backing
file whenever the file's modification time equals the cached one (so a second
consecutive get never re-reads), and each of the four mutations writes the
backing store and refreshes both cache fields in the same critical section, so
the next `get_history` sees the mutation from the cache even when the new
modification time equals the old one. -/
theorem c8_history_cache :
    (∀ (file : FileSt) (cache : CacheSt), cache.lastMtime = some file.mtime →
      getHistory file cache = ⟨cache.data, cache, false⟩)
  ∧ (∀ (file : FileSt) (cache : CacheSt),
      (getHistory file (getHistory file cache).cache).items = (getHistory file cache).items ∧
      (getHistory file (getHistory file cache).cache).didRead = false)
  ∧ (∀ (file : FileSt) (cache : CacheSt) (item : HistoryItem) (m : Nat),
      getHistory (saveToHistory file cache item m).1 (saveToHistory file cache item m).2 =
        ⟨item :: file.items, ⟨some m, item :: file.items⟩, false⟩)
  ∧ (∀ (file : FileSt) (cache : CacheSt) (id : String) (m : Nat),
      (deleteHistoryItem file cache id m).1 = .ok () →
      getHistory (deleteHistoryItem file cache id m).2.1 (deleteHistoryItem file cache id m).2.2 =
        ⟨file.items.filter (fun it => it.id != id),
          ⟨some m, file.items.filter (fun it => it.id != id)⟩, false⟩)
  ∧ (∀ (file : FileSt) (cache : CacheSt) (id title : String) (m : Nat) (newItems : List HistoryItem),
      setFirstTitle file.items id title = some newItems →
      getHistory (updateHistoryTitle file cache id title m).2.1
          (updateHistoryTitle file cache id title m).2.2 =
        ⟨newItems, ⟨some m, newItems⟩, false⟩)
  ∧ (∀ (file : FileSt) (cache : CacheSt) (id : String) (fav : Bool) (m : Nat)
        (newItems : List HistoryItem),
      setFirstFavorite file.items id fav = some newItems →
      getHistory (updateFavoriteStatus file cache id fav m).2.1
          (updateFavoriteStatus file cache id fav m).2.2 =
        ⟨newItems, ⟨some m, newItems⟩, false⟩) := by
  refine ⟨?_, ?_, ?_, ?_, ?_, ?_⟩
  · intro file cache h
    simp [getHistory, h]
  · intro file cache
    by_cases h : cache.lastMtime = some file.mtime
    · simp [getHistory, h]
    · simp [getHistory, h]
  · intro file cache item m
    simp [getHistory, saveToHistory]
  · intro file cache id m h
    by_cases hc : (file.items.filter (fun it => it.id != id)).length = file.items.length
    · simp [deleteHistoryItem, hc] at h
    · simp [deleteHistoryItem, hc, getHistory]
  · intro file cache id title m newItems h
    simp [updateHistoryTitle, h, getHistory]
  · intro file cache id fav m newItems h
    simp [updateFavoriteStatus, h, getHistory]

/-- C8 witness: a successful deletion performed within the same
modification-time granularity window (new mtime equals the old) is still
immediately visible to the next `get_history`, served from the cache. -/
theorem c8_history_cache_witness :
    getHistory (deleteHistoryItem ⟨[histItemA], 5⟩ ⟨some 5, [histItemA]⟩ "a" 5).2.1
        (deleteHistoryItem ⟨[histItemA], 5⟩ ⟨some 5, [histItemA]⟩ "a" 5).2.2 =
      ⟨[], ⟨some 5, []⟩, false⟩ := by
  have h := c8_history_cache.2.2.2.1 ⟨[histItemA], 5⟩ ⟨some 5, [histItemA]⟩ "a" 5 (by rfl)
  rw [h]
  decide

/-- C1 counterexample: with all three configured prompts empty, the
`recognize_from_image_base64` entry point does not fail — it silently
substitutes `custom_prompt` for the latex and analysis prompts, issues all
three backend requests, and completes successfully. -/
theorem c1_counterexample :
    (recognizeBase64 ⟨"", "", "", "CUSTOM PROMPT", "en", "m"⟩ "FR" "LA" "LV" "i" "c" "p"
      ⟨.ok "L", .ok ("T", ⟨"S", [], [], []⟩), .ok ⟨90, "R"⟩, 0, 0, 0⟩).requests =
      ["CUSTOM PROMPT", "CUSTOM PROMPT", "\n\nLV"]
  ∧ (recognizeBase64 ⟨"", "", "", "CUSTOM PROMPT", "en", "m"⟩ "FR" "LA" "LV" "i" "c" "p"
      ⟨.ok "L", .ok ("T", ⟨"S", [], [], []⟩), .ok ⟨90, "R"⟩, 0, 0, 0⟩).result =
      .ok ⟨"i", "L", "T", ⟨"S", [], [], []⟩, false, "c", 90, "p", some "m", none, some "R"⟩ := by
  constructor
  · rfl
  · rfl

/-- C1 (amended): the screenshot, file and clipboard entry points reject an
empty (after trim) latex/analysis/verification prompt before issuing any
backend request, each with its own distinct message and without substituting
any other prompt text; the base64 entry point performs no such check — an
empty latex (or analysis) prompt is silently replaced by `custom_prompt` and
an empty verification prompt is used as-is. -/
theorem c1_prompt_validation (cfg : ConfigM) (fr la lv id ca ip : String) (oc : StageResults) :
    (strTrimIsEmpty cfg.latexPrompt = true →
      recognizeChecked cfg fr la lv id ca ip oc = ⟨[], [], .error latexPromptMissingMsg, none⟩)
  ∧ (strTrimIsEmpty cfg.latexPrompt = false → strTrimIsEmpty cfg.analysisPrompt = true →
      recognizeChecked cfg fr la lv id ca ip oc = ⟨[], [], .error analysisPromptMissingMsg, none⟩)
  ∧ (strTrimIsEmpty cfg.latexPrompt = false → strTrimIsEmpty cfg.analysisPrompt = false →
      strTrimIsEmpty cfg.verificationPrompt = true →
      recognizeChecked cfg fr la lv id ca ip oc =
        ⟨[], [], .error verificationPromptMissingMsg, none⟩)
  ∧ (latexPromptMissingMsg ≠ analysisPromptMissingMsg ∧
      latexPromptMissingMsg ≠ verificationPromptMissingMsg ∧
      analysisPromptMissingMsg ≠ verificationPromptMissingMsg)
  ∧ (∀ latex, strTrimIsEmpty cfg.latexPrompt = false → strTrimIsEmpty cfg.analysisPrompt = false →
      strTrimIsEmpty cfg.verificationPrompt = false → oc.latexRes = .ok latex →
      (recognizeChecked cfg fr la lv id ca ip oc).requests =
        [cfg.latexPrompt ++ fr, cfg.analysisPrompt ++ "\n\n" ++ la,
          cfg.verificationPrompt ++ "\n\n" ++ lv])
  ∧ (strIsEmpty cfg.latexPrompt = true →
      (recognizeBase64 cfg fr la lv id ca ip oc).requests.head? = some cfg.customPrompt) := by
  refine ⟨?_, ?_, ?_, ⟨by decide, by decide, by decide⟩, ?_, ?_⟩
  · intro h
    simp [recognizeChecked, h]
  · intro h1 h2
    simp [recognizeChecked, h1, h2]
  · intro h1 h2 h3
    simp [recognizeChecked, h1, h2, h3]
  · intro latex h1 h2 h3 hres
    simp [recognizeChecked, h1, h2, h3, orchestrate, hres]
  · intro h
    cases hres : oc.latexRes with
    | ok latex => simp [recognizeBase64, orchestrate, h, hres]
    | error e => simp [recognizeBase64, orchestrate, h, hres]

/-- C1 witness: with an empty latex prompt, a checked entry point fails with
the latex-specific message, while the base64 entry point substitutes the
custom prompt as its first issued request. -/
theorem c1_prompt_validation_witness :
    (recognizeChecked ⟨"", "", "", "CP", "en", "m"⟩ "FR" "LA" "LV" "i" "c" "p"
      ⟨.ok "L", .ok ("T", ⟨"S", [], [], []⟩), .ok ⟨90, "R"⟩, 0, 0, 0⟩).result =
      .error latexPromptMissingMsg
  ∧ (recognizeBase64 ⟨"", "", "", "CP", "en", "m"⟩ "FR" "LA" "LV" "i" "c" "p"
      ⟨.ok "L", .ok ("T", ⟨"S", [], [], []⟩), .ok ⟨90, "R"⟩, 0, 0, 0⟩).requests.head? =
      some "CP" := by
  constructor
  · rw [(c1_prompt_validation ⟨"", "", "", "CP", "en", "m"⟩ "FR" "LA" "LV" "i" "c" "p"
      ⟨.ok "L", .ok ("T", ⟨"S", [], [], []⟩), .ok ⟨90, "R"⟩, 0, 0, 0⟩).1 (by decide)]
  · exact (c1_prompt_validation ⟨"", "", "", "CP", "en", "m"⟩ "FR" "LA" "LV" "i" "c" "p"
      ⟨.ok "L", .ok ("T", ⟨"S", [], [], []⟩), .ok ⟨90, "R"⟩, 0, 0, 0⟩).2.2.2.2.2 (by decide)

/-- C2: with all three prompts configured, an extraction-stage failure aborts
the whole call with that error and appends no history record; an
analysis-stage failure still succeeds with the localized default title and an
empty analysis carrying the localized placeholder summary; a
verification-stage failure still succeeds with confidence score 0 and the
fixed "verification failed" report. -/
theorem c2_stage_failure_policy (cfg : ConfigM) (fr la lv id ca ip : String) (oc : StageResults)
    (hl : strTrimIsEmpty cfg.latexPrompt = false)
    (ha : strTrimIsEmpty cfg.analysisPrompt = false)
    (hv : strTrimIsEmpty cfg.verificationPrompt = false) :
    (∀ e, oc.latexRes = .error e →
      (recognizeChecked cfg fr la lv id ca ip oc).result = .error e ∧
      (recognizeChecked cfg fr la lv id ca ip oc).appended = none)
  ∧ (∀ latex ea, oc.latexRes = .ok latex → oc.analysisRes = .error ea →
      ∃ item, (recognizeChecked cfg fr la lv id ca ip oc).result = .ok item ∧
        (recognizeChecked cfg fr la lv id ca ip oc).appended = some item ∧
        item.title = defaultTitleForLang cfg.language ∧
        item.analysis = emptyAnalysisForLang cfg.language ∧
        item.analysis.summary = defaultSummaryForLang cfg.language)
  ∧ (∀ latex ev, oc.latexRes = .ok latex → oc.verifyRes = .error ev →
      ∃ item, (recognizeChecked cfg fr la lv id ca ip oc).result = .ok item ∧
        (recognizeChecked cfg fr la lv id ca ip oc).appended = some item ∧
        item.confidenceScore = 0 ∧
        item.verificationReport = some verificationFailedReport) := by
  refine ⟨?_, ?_, ?_⟩
  · intro e h
    constructor
    · simp [recognizeChecked, hl, ha, hv, orchestrate, h]
    · simp [recognizeChecked, hl, ha, hv, orchestrate, h]
  · intro latex ea h1 h2
    cases hvr : oc.verifyRes with
    | ok vr =>
      refine ⟨⟨id, latex, defaultTitleForLang cfg.language, emptyAnalysisForLang cfg.language,
        false, ca, vr.confidenceScore, ip, some cfg.defaultEngine, none,
        some vr.verificationReport⟩, ?_, ?_, rfl, rfl, rfl⟩
      · simp [recognizeChecked, hl, ha, hv, orchestrate, h1, h2, hvr]
      · simp [recognizeChecked, hl, ha, hv, orchestrate, h1, h2, hvr]
    | error ev =>
      refine ⟨⟨id, latex, defaultTitleForLang cfg.language, emptyAnalysisForLang cfg.language,
        false, ca, 0, ip, some cfg.defaultEngine, none,
        some verificationFailedReport⟩, ?_, ?_, rfl, rfl, rfl⟩
      · simp [recognizeChecked, hl, ha, hv, orchestrate, h1, h2, hvr]
      · simp [recognizeChecked, hl, ha, hv, orchestrate, h1, h2, hvr]
  · intro latex ev h1 h2
    cases han : oc.analysisRes with
    | ok ta =>
      refine ⟨⟨id, latex, ta.1, ta.2, false, ca, 0, ip, some cfg.defaultEngine, none,
        some verificationFailedReport⟩, ?_, ?_, rfl, rfl⟩
      · simp [recognizeChecked, hl, ha, hv, orchestrate, h1, h2, han]
      · simp [recognizeChecked, hl, ha, hv, orchestrate, h1, h2, han]
    | error ea =>
      refine ⟨⟨id, latex, defaultTitleForLang cfg.language, emptyAnalysisForLang cfg.language,
        false, ca, 0, ip, some cfg.defaultEngine, none,
        some verificationFailedReport⟩, ?_, ?_, rfl, rfl⟩
      · simp [recognizeChecked, hl, ha, hv, orchestrate, h1, h2, han]
      · simp [recognizeChecked, hl, ha, hv, orchestrate, h1, h2, han]

/-- C2 witness: a concrete extraction failure aborts the call with that
error. -/
theorem c2_stage_failure_policy_witness :
    (recognizeChecked ⟨"P1", "P2", "P3", "", "en", "m"⟩ "FR" "LA" "LV" "i" "c" "p"
      ⟨.error "boom", .ok ("T", ⟨"S", [], [], []⟩), .ok ⟨90, "R"⟩, 0, 0, 0⟩).result =
      .error "boom" :=
  ((c2_stage_failure_policy ⟨"P1", "P2", "P3", "", "en", "m"⟩ "FR" "LA" "LV" "i" "c" "p"
      ⟨.error "boom", .ok ("T", ⟨"S", [], [], []⟩), .ok ⟨90, "R"⟩, 0, 0, 0⟩
      (by decide) (by decide) (by decide)).1 "boom" rfl).1

/-- C3: the emitted progress events of one recognition call are a function of
the stage results alone — they do not depend on the wall-clock completion
instants of the concurrently running tasks — and every call that returns a
record emits exactly the three events latex, analysis, confidence, in that
order. -/
theorem c3_event_order (cfg : ConfigM) (fr la lv id ca ip : String)
    (r1 : Except String String) (r2 : Except String (String × Analysis))
    (r3 : Except String VerificationResult) (t1 t2 t3 u1 u2 u3 : Nat) :
    (recognizeChecked cfg fr la lv id ca ip ⟨r1, r2, r3, t1, t2, t3⟩).events =
      (recognizeChecked cfg fr la lv id ca ip ⟨r1, r2, r3, u1, u2, u3⟩).events
  ∧ (∀ item, (recognizeChecked cfg fr la lv id ca ip ⟨r1, r2, r3, t1, t2, t3⟩).result = .ok item →
      (recognizeChecked cfg fr la lv id ca ip ⟨r1, r2, r3, t1, t2, t3⟩).events.map
        (fun ev => ev.stage) = [Stage.latex, Stage.analysis, Stage.confidence]) := by
  constructor
  · rfl
  · intro item h
    by_cases hl : strTrimIsEmpty cfg.latexPrompt
    · simp [recognizeChecked, hl] at h
    · by_cases ha : strTrimIsEmpty cfg.analysisPrompt
      · simp [recognizeChecked, hl, ha] at h
      · by_cases hv : strTrimIsEmpty cfg.verificationPrompt
        · simp [recognizeChecked, hl, ha, hv] at h
        · cases r1 with
          | error e => simp [recognizeChecked, hl, ha, hv, orchestrate] at h
          | ok latex => simp [recognizeChecked, hl, ha, hv, orchestrate]

/-- C3 witness: a concrete successful call, with arbitrary completion
instants, emits the stages in the fixed order. -/
theorem c3_event_order_witness :
    (recognizeChecked ⟨"P1", "P2", "P3", "", "en", "m"⟩ "FR" "LA" "LV" "i" "c" "p"
      ⟨.ok "L", .ok ("T", ⟨"S", [], [], []⟩), .ok ⟨90, "R"⟩, 3, 1, 2⟩).events.map
      (fun ev => ev.stage) = [Stage.latex, Stage.analysis, Stage.confidence] :=
  (c3_event_order ⟨"P1", "P2", "P3", "", "en", "m"⟩ "FR" "LA" "LV" "i" "c" "p"
      (.ok "L") (.ok ("T", ⟨"S", [], [], []⟩)) (.ok ⟨90, "R"⟩) 3 1 2 0 0 0).2
    ⟨"i", "L", "T", ⟨"S", [], [], []⟩, false, "c", 90, "p", some "m", none, some "R"⟩ rfl
